import Mathlib

/-!
Verification development for the bitchat-web repository.

Shallow embedding of the parts of the source relevant to the session layer:
- `Crypto`: `CryptoService.encryptMessage` / `decryptMessage` (src/js/crypto.js),
  parameterised over the external WebCrypto AES-GCM capability and the
  TextEncoder/TextDecoder pair, whose correctness is the browser's contract.
- `CrossTab`: `CrossTabService.electLeader` (src/js/cross-tab.js).
- `Chat`: `ChatService.addMessage` and the message send paths
  (`sendChannelMessage`, `sendPrivateMessage`) from the chat service file.
- `BT`: `BluetoothService` (the WebRTC session layer): peer/connection tables,
  signaling handling, initiation, data-channel sends, broadcast, the
  simulated-discovery fallback, and an event-driven step function over the
  callbacks and timers the source registers.  Timers are collapsed to discrete
  events (a scheduled callback firing is an event); the external WebRTC
  operations (`createOffer`, `setRemoteDescription`, ...) are modelled as
  succeeding, with their opaque description payloads represented by `Nat`
  tokens.  Byte payloads written to a data channel are the JSON text the
  source produces via `JSON.stringify`, built here as concrete strings.
-/

namespace Crypto

/-- The external WebCrypto capability consumed by `CryptoService`
(src/js/crypto.js): `crypto.subtle.encrypt` / `crypto.subtle.decrypt` for
AES-GCM under a key and a 12-byte IV, plus the `TextEncoder` / `TextDecoder`
pair.  The two round-trip fields are the documented contract of those browser
primitives; the repository code delegates to them and is modelled over any
implementation satisfying the contract. -/
structure SubtleCrypto (Key : Type) where
  gcmEncrypt : Key → List Nat → List Nat → List Nat
  gcmDecrypt : Key → List Nat → List Nat → Option (List Nat)
  textEncode : String → List Nat
  textDecode : List Nat → String
  gcm_roundtrip : ∀ k iv m, gcmDecrypt k iv (gcmEncrypt k iv m) = some m
  text_roundtrip : ∀ s, textDecode (textEncode s) = s

/-- Model of `CryptoService.encryptMessage(message, key)` (src/js/crypto.js:156-183):
encodes the message, AES-GCM-encrypts it under the key and a random 12-byte
IV, and returns IV ++ ciphertext.  The randomly generated IV is passed in
explicitly (`crypto.getRandomValues(new Uint8Array(12))`). -/
def encryptMessage {Key : Type} (C : SubtleCrypto Key) (iv : List Nat)
    (message : String) (key : Key) : List Nat :=
  let data := C.textEncode message
  let encrypted := C.gcmEncrypt key iv data
  iv ++ encrypted

/-- Model of `CryptoService.decryptMessage(encryptedData, key)` (src/js/crypto.js:188-209):
splits off the first 12 bytes as the IV (`encryptedData.slice(0, 12)`), AES-GCM
decrypts the rest (`encryptedData.slice(12)`), and decodes the plaintext.
A failed authentication is the `none` case of the external primitive. -/
def decryptMessage {Key : Type} (C : SubtleCrypto Key) (encryptedData : List Nat)
    (key : Key) : Option String :=
  let iv := encryptedData.take 12
  let encrypted := encryptedData.drop 12
  (C.gcmDecrypt key iv encrypted).map C.textDecode

/-- A concrete instance of the WebCrypto capability contract (identity cipher,
char-code text codec), used to instantiate round-trip statements on concrete
inputs. -/
def idSubtle : SubtleCrypto Unit where
  gcmEncrypt := fun _ _ m => m
  gcmDecrypt := fun _ _ c => some c
  textEncode := fun s => s.data.map Char.toNat
  textDecode := fun l => String.mk (l.map Char.ofNat)
  gcm_roundtrip := fun _ _ _ => rfl
  text_roundtrip := by
    intro s
    simp [List.map_map, Function.comp_def, Char.ofNat_toNat]

/-- A fixed 12-byte IV used for concrete instantiations. -/
def iv12 : List Nat := [0, 1, 2, 3, 4, 5, 6, 7, 8, 9, 10, 11]

end Crypto

namespace CrossTab

/-- Lexicographic comparison of char lists by code point, the comparison the
JavaScript default `Array.prototype.sort()` applies to the tab-id strings in
`CrossTabService.electLeader` (src/js/cross-tab.js:111-125). -/
def charListLeb : List Char → List Char → Bool
  | [], _ => true
  | _ :: _, [] => false
  | a :: as, b :: bs =>
    if a < b then true
    else if b < a then false
    else charListLeb as bs

/-- String comparison used as the sort predicate: code-unit lexicographic
order, as the default JS sort comparator. -/
def jsLeb (a b : String) : Bool := charListLeb a.data b.data

/-- Model of `CrossTabService.electLeader` (src/js/cross-tab.js:111-125): sorts
`Object.keys(tabs)` and elects this tab iff the table is non-empty and the
first sorted key is its own id (`tabIds.length > 0 && tabIds[0] === this.myTabId`).
The registered-tabs table is represented by its key list. -/
def electLeader (tabs : List String) (myTabId : String) : Bool :=
  let tabIds := tabs.mergeSort jsLeb
  match tabIds with
  | [] => false
  | first :: _ => first == myTabId

end CrossTab

namespace Chat

/-- The history-trimming part of `ChatService.addMessage` (part_001:602-618):
pushes the message, then if the channel holds more than 1000 messages removes
the oldest ones (`channelMessages.splice(0, channelMessages.length - 1000)`). -/
def addMessage {α : Type} (channelMessages : List α) (message : α) : List α :=
  let pushed := channelMessages ++ [message]
  if pushed.length > 1000 then pushed.drop (pushed.length - 1000) else pushed

/-- Model of `ChatService.addMessage(channel, message)` on the per-channel message map
(`this.messages`); a channel absent from the map is initialised to `[]`, which
the total-function representation gives by default. -/
def addMessageMap {α : Type} (messages : String → List α) (channel : String)
    (message : α) : String → List α :=
  fun c => if c = channel then addMessage (messages c) message else messages c

end Chat

namespace BT

/-- An `RTCDataChannel` as observed by `BluetoothService`: whether
`readyState === 'open'`, and whether `dataChannel.send` currently succeeds
(the source wraps the send in try/catch, so a throwing channel makes
`sendToPeer` return false). -/
structure DataChannel where
  isOpen : Bool
  canSend : Bool
deriving DecidableEq, Repr

/-- Inbound signaling envelopes dispatched by
`BluetoothService.handleSignalingMessage` (part_002:136-167).  The negotiation
payloads (`data`) are opaque to this code and modelled as `Nat` tokens. -/
inductive SigMsg where
  | roomJoined (peers : List String)
  | peerJoined (peerId : String)
  | peerLeft (peerId : String)
  | offer (peerId : String) (data : Nat)
  | answer (peerId : String) (data : Nat)
  | iceCandidate (peerId : String) (data : Nat)
deriving DecidableEq, Repr

/-- Outbound signaling envelopes produced by `joinSignalingRoom` and
`sendSignalingMessage`. -/
inductive SigOut where
  | join (roomId peerId : String)
  | offer (peerId targetPeer : String) (data : Nat)
  | answer (peerId targetPeer : String) (data : Nat)
  | iceCandidate (peerId targetPeer : String) (data : Nat)
deriving DecidableEq, Repr

/-- Observable actions of the service: writes to the signaling WebSocket,
writes to a peer data channel (`dataChannel.send(message)`), and delegate
callbacks. -/
inductive Out where
  | sigSend (m : SigOut)
  | channelWrite (peerId : String) (payload : String)
  | discoveredCb (peerId name : String) (rssi : Int)
  | connectedCb (peerId name : String)
  | disconnectedCb (peerId : String)
  | scanningStartedCb
  | scanningStoppedCb
deriving DecidableEq, Repr

/-- State of `BluetoothService` (part_002 constructor): the `peers`,
`discoveredPeers`, `connections` and `dataChannels` tables (keyed association
lists preserving JS `Map` insertion order; of the record values only the
fields this code reads back are kept: peer display names), the scanning flag,
the signaling WebSocket status, and the pending timers the source registers
(`setInterval` from `startPeerDiscovery`; `setTimeout(simulatePeerDiscovery)`
from the `onclose` handler and the failed reachability probe; the nested
auto-connect timeouts of `simulatePeerDiscovery`). -/
structure BTState where
  myId : String
  roomId : String
  myNickname : String
  now : Nat
  peers : List (String × String)
  discoveredPeers : List (String × String)
  connections : List String
  dataChannels : List (String × DataChannel)
  isScanning : Bool
  wsExists : Bool
  wsReady : Bool
  discoveryIntervalSet : Bool
  simPending : Bool
  autoConnectPending : List String
deriving DecidableEq, Repr

/-- JS `Map.prototype.get` on an association list. -/
def lookupAssoc {α : Type} : List (String × α) → String → Option α
  | [], _ => none
  | (k, v) :: rest, key => if k == key then some v else lookupAssoc rest key

/-- JS `Map.prototype.set`: replace in place if the key exists, else append. -/
def setAssoc {α : Type} (l : List (String × α)) (key : String) (v : α) :
    List (String × α) :=
  if l.any (fun kv => kv.1 == key) then
    l.map (fun kv => if kv.1 == key then (key, v) else kv)
  else l ++ [(key, v)]

/-- JS `Map.prototype.delete` on the key. -/
def eraseAssoc {α : Type} (l : List (String × α)) (key : String) :
    List (String × α) :=
  l.filter (fun kv => kv.1 != key)

/-- Model of `BluetoothService.sendSignalingMessage` (part_002:313-317): writes to the
signaling WebSocket only if it exists and `readyState === WebSocket.OPEN`. -/
def sendSignalingMessage (st : BTState) (m : SigOut) : List Out :=
  if st.wsExists && st.wsReady then [Out.sigSend m] else []

/-- Model of `BluetoothService.initiateConnectionToPeer` (part_002:172-207): returns
immediately if `this.connections` already has an entry for the peer; otherwise
registers a new `RTCPeerConnection`, creates the data channel, creates a local
offer and sends it via the relay.  The WebRTC operations are modelled as
succeeding; the opaque offer description is the token `0`. -/
def initiateConnectionToPeer (st : BTState) (peerId : String) :
    BTState × List Out :=
  if st.connections.contains peerId then (st, [])
  else
    let st' := { st with connections := st.connections ++ [peerId] }
    (st', sendSignalingMessage st' (SigOut.offer st.myId peerId 0))

/-- Model of `BluetoothService.connectToPeer` (part_002:429-431): legacy alias for
`initiateConnectionToPeer`. -/
def connectToPeer (st : BTState) (peerId : String) : BTState × List Out :=
  initiateConnectionToPeer st peerId

/-- Model of `BluetoothService.handleIncomingOffer` (part_002:286-308): called for an
offer from a peer with no existing connection; registers a connection, applies
the remote offer, creates an answer and sends it. -/
def handleIncomingOffer (st : BTState) (peerId : String) :
    BTState × List Out :=
  let st' := { st with connections := st.connections ++ [peerId] }
  (st', sendSignalingMessage st' (SigOut.answer st.myId peerId 0))

/-- Model of `BluetoothService.handleWebRTCSignaling` (part_002:244-281): with no
existing connection only an offer is acted on (answering side); with an
existing connection an offer is answered, an answer / candidate is applied to
the RTC connection (no observable state change in the modelled tables). -/
def handleWebRTCSignaling (st : BTState) (peerId : String) (m : SigMsg) :
    BTState × List Out :=
  if st.connections.contains peerId then
    match m with
    | SigMsg.offer _ _ => (st, sendSignalingMessage st (SigOut.answer st.myId peerId 0))
    | _ => (st, [])
  else
    match m with
    | SigMsg.offer _ _ => handleIncomingOffer st peerId
    | _ => (st, [])

/-- Model of `BluetoothService.sendToPeer` (part_002:515-530): looks up the data
channel; if it exists and `readyState === 'open'`, sends (returning false if
the send throws), otherwise warns and returns false. -/
def sendToPeer (st : BTState) (peerId message : String) : Bool × List Out :=
  match lookupAssoc st.dataChannels peerId with
  | some dataChannel =>
    if dataChannel.isOpen then
      if dataChannel.canSend then (true, [Out.channelWrite peerId message])
      else (false, [])
    else (false, [])
  | none => (false, [])

/-- Model of `BluetoothService.broadcastMessage` (part_002:535-545): sends to every
peer in `this.peers`, counting the sends that returned true. -/
def broadcastMessage (st : BTState) (message : String) : Nat × List Out :=
  st.peers.foldl
    (fun acc pr =>
      let r := sendToPeer st pr.1 message
      (if r.1 then acc.1 + 1 else acc.1, acc.2 ++ r.2))
    (0, [])

/-- Model of `BluetoothService.isPeerConnected` (part_002:668-670): membership in the
`peers` table. -/
def isPeerConnected (st : BTState) (peerId : String) : Bool :=
  st.peers.any (fun pr => pr.1 == peerId)

/-- The guard of `sendToPeer` read off the channel table:
`dataChannel && dataChannel.readyState === 'open'`. -/
def channelOpenFor (st : BTState) (peerId : String) : Bool :=
  match lookupAssoc st.dataChannels peerId with
  | some dc => dc.isOpen
  | none => false

/-- The `JSON.stringify` text of the handshake envelope built by `sendHandshake`
(part_002:501-510): `{ type: 'handshake', from, nickname, timestamp }`. -/
def jsonHandshake (senderId nickname : String) (now : Nat) : String :=
  "\x7b\"type\":\"handshake\",\"from\":\"" ++ senderId ++ "\",\"nickname\":\"" ++
    nickname ++ "\",\"timestamp\":" ++ toString now ++ "\x7d"

/-- Last four characters of a string (`peerId.slice(-4)`). -/
def lastFour (s : String) : String :=
  String.mk (s.data.drop (s.data.length - 4))

/-- Model of `BluetoothService.onPeerConnected` (part_002:459-481): records the peer in
`this.peers` (name from `discoveredPeers` or a `Peer-` default), notifies the
delegate, and sends the (plaintext JSON) handshake via `sendToPeer`. -/
def onPeerConnected (st : BTState) (peerId : String) : BTState × List Out :=
  let name := (lookupAssoc st.discoveredPeers peerId).getD ("Peer-" ++ lastFour peerId)
  let st' := { st with peers := setAssoc st.peers peerId name }
  let r := sendToPeer st' peerId (jsonHandshake st'.myId st'.myNickname st'.now)
  (st', [Out.connectedCb peerId name] ++ r.2)

/-- Model of `BluetoothService.onPeerDisconnected` (part_002:486-496): removes the peer
from the `peers`, `connections` and `dataChannels` tables and notifies the
delegate. -/
def onPeerDisconnected (st : BTState) (peerId : String) : BTState × List Out :=
  ({ st with
      peers := eraseAssoc st.peers peerId,
      connections := st.connections.filter (fun q => q != peerId),
      dataChannels := eraseAssoc st.dataChannels peerId },
   [Out.disconnectedCb peerId])

/-- The fixed synthetic peer set of `simulatePeerDiscovery` (part_002:385-389). -/
def simulatedPeers : List (String × String × Int) :=
  [("peer-001", "Alice", -45), ("peer-002", "Bob", -67), ("peer-003", "Carol", -89)]

/-- Model of `BluetoothService.simulatePeerDiscovery` (part_002:384-412): records each
synthetic peer in `discoveredPeers`, emits the `onPeerDiscovered` delegate
callback, and schedules the nested auto-connect timeout for each (the
staggered timings are collapsed; the auto-connect firings are separate
events). -/
def simulatePeerDiscovery (st : BTState) : BTState × List Out :=
  simulatedPeers.foldl
    (fun acc pr =>
      ({ acc.1 with
          discoveredPeers := setAssoc acc.1.discoveredPeers pr.1 pr.2.1,
          autoConnectPending := acc.1.autoConnectPending ++ [pr.1] },
       acc.2 ++ [Out.discoveredCb pr.1 pr.2.1 pr.2.2]))
    (st, [])

/-- Model of `BluetoothService.startScanning` (part_002:329-344): no-op when already
scanning; otherwise sets the flag, notifies the delegate and calls
`startPeerDiscovery`, which registers the 10-second `setInterval` that calls
`simulatePeerDiscovery` whenever `isScanning` (part_002:417-424). -/
def startScanning (st : BTState) : BTState × List Out :=
  if st.isScanning then (st, [])
  else ({ st with isScanning := true, discoveryIntervalSet := true },
        [Out.scanningStartedCb])

/-- Model of `BluetoothService.handleSignalingMessage` (part_002:136-167): on
`room-joined` initiates a connection to every listed peer other than self; on
`peer-joined` initiates to the new peer; on `peer-left` runs
`onPeerDisconnected`; offers/answers/candidates go to
`handleWebRTCSignaling`. -/
def handleSignalingMessage (st : BTState) (m : SigMsg) : BTState × List Out :=
  match m with
  | SigMsg.roomJoined peers =>
    peers.foldl
      (fun acc id =>
        if id != acc.1.myId then
          let r := initiateConnectionToPeer acc.1 id
          (r.1, acc.2 ++ r.2)
        else acc)
      (st, [])
  | SigMsg.peerJoined peerId =>
    if peerId != st.myId then initiateConnectionToPeer st peerId else (st, [])
  | SigMsg.peerLeft peerId => onPeerDisconnected st peerId
  | SigMsg.offer peerId _ => handleWebRTCSignaling st peerId m
  | SigMsg.answer peerId _ => handleWebRTCSignaling st peerId m
  | SigMsg.iceCandidate peerId _ => handleWebRTCSignaling st peerId m

/-- Model of `BluetoothService.disconnectFromPeer` (part_002:675-681): closes the RTC
connection and runs `onPeerDisconnected`. -/
def disconnectFromPeer (st : BTState) (peerId : String) : BTState × List Out :=
  onPeerDisconnected st peerId

/-- The discrete events that drive `BluetoothService`: the resolution of the
startup reachability probe (`initWithFallback`, part_002:747-758), WebSocket
callbacks, external API calls, and the firing of the timers the source
registers. -/
inductive Ev where
  | probeResult (reachable : Bool)
  | wsOpened
  | wsMessage (m : SigMsg)
  | wsClosed
  | startScan
  | stopScan
  | discoveryTick
  | simTimerFire
  | autoConnectFire (peerId : String)
  | channelOpened (peerId : String) (canSend : Bool)
  | channelClosed (peerId : String)
  | connConnected (peerId : String)
  | connFailed (peerId : String)
  | connectRequest (peerId : String)
  | disconnectRequest (peerId : String)
deriving DecidableEq, Repr

/-- One reaction of `BluetoothService` to an event.
`probeResult true` runs `setupSignaling` (creates the WebSocket);
`probeResult false` schedules `simulatePeerDiscovery` (part_002:747-758).
`wsOpened` joins the signaling room; `wsClosed` schedules the simulation
fallback (the `onclose` handler, part_002:96-103).  `discoveryTick` is the
10-second interval of `startPeerDiscovery` (guarded by `isScanning`);
`simTimerFire` is a scheduled `setTimeout(simulatePeerDiscovery)` firing;
`autoConnectFire` is a nested auto-connect timeout of the simulation.
`channelOpened` / `channelClosed` are the data-channel `onopen` / `onclose`
handlers (part_002:436-454); `connConnected` / `connFailed` are the
`onconnectionstatechange` outcomes (part_002:224-233). -/
def step (st : BTState) (e : Ev) : BTState × List Out :=
  match e with
  | Ev.probeResult reachable =>
    if reachable then ({ st with wsExists := true }, [])
    else ({ st with simPending := true }, [])
  | Ev.wsOpened =>
    if st.wsExists then
      let st' := { st with wsReady := true }
      (st', sendSignalingMessage st' (SigOut.join st'.roomId st'.myId))
    else (st, [])
  | Ev.wsMessage m =>
    if st.wsExists && st.wsReady then handleSignalingMessage st m else (st, [])
  | Ev.wsClosed =>
    if st.wsExists then ({ st with wsReady := false, simPending := true }, [])
    else (st, [])
  | Ev.startScan => startScanning st
  | Ev.stopScan => ({ st with isScanning := false }, [Out.scanningStoppedCb])
  | Ev.discoveryTick =>
    if st.discoveryIntervalSet && st.isScanning then simulatePeerDiscovery st
    else (st, [])
  | Ev.simTimerFire =>
    if st.simPending then simulatePeerDiscovery { st with simPending := false }
    else (st, [])
  | Ev.autoConnectFire peerId =>
    if st.autoConnectPending.contains peerId then
      onPeerConnected { st with autoConnectPending := st.autoConnectPending.erase peerId } peerId
    else (st, [])
  | Ev.channelOpened peerId canSend =>
    ({ st with dataChannels := setAssoc st.dataChannels peerId ⟨true, canSend⟩ }, [])
  | Ev.channelClosed peerId =>
    ({ st with dataChannels := eraseAssoc st.dataChannels peerId }, [])
  | Ev.connConnected peerId => onPeerConnected st peerId
  | Ev.connFailed peerId => onPeerDisconnected st peerId
  | Ev.connectRequest peerId => connectToPeer st peerId
  | Ev.disconnectRequest peerId => disconnectFromPeer st peerId

/-- Run of the service over a sequence of events, accumulating outputs. -/
def run (st : BTState) (evs : List Ev) : BTState × List Out :=
  evs.foldl
    (fun acc e =>
      let r := step acc.1 e
      (r.1, acc.2 ++ r.2))
    (st, [])

/-- The state of a freshly constructed `BluetoothService` (part_002:7-27),
with the random identifiers and clock supplied explicitly. -/
def initState (myId roomId nickname : String) (now : Nat) : BTState :=
  { myId := myId, roomId := roomId, myNickname := nickname, now := now,
    peers := [], discoveredPeers := [], connections := [], dataChannels := [],
    isScanning := false, wsExists := false, wsReady := false,
    discoveryIntervalSet := false, simPending := false, autoConnectPending := [] }

/-- The events whose handler removes `peerId` from `this.connections`
(`onPeerDisconnected` call sites): the relay reporting the peer left, the RTC
connection reporting disconnected/failed, and an explicit disconnect call. -/
def removesConnection (peerId : String) (e : Ev) : Bool :=
  e == Ev.wsMessage (SigMsg.peerLeft peerId) || e == Ev.connFailed peerId ||
    e == Ev.disconnectRequest peerId

end BT

namespace Chat

/-- A message object as stored by `ChatService` (absent JS fields are `""`).
`kind` is the JS `type` field, `sender` is `from`, `recipient` is `to`. -/
structure ChatMsg where
  id : String
  kind : String
  channel : String
  sender : String
  recipient : String
  content : String
  timestamp : String
  own : Bool
deriving DecidableEq, Repr

/-- State of `ChatService` (part_001 constructor): the underlying
`BluetoothService`, the per-channel and per-peer message stores (total
functions defaulting to `[]`), the current channel and the nickname. -/
structure ChatState where
  bt : BT.BTState
  messages : String → List ChatMsg
  privateMessages : String → List ChatMsg
  currentChannel : String
  myNickname : String

/-- The `JSON.stringify` text of the channel-chat envelope built by
`sendChannelMessage` (part_001:193-200): field order
`id, type, channel, from, content, timestamp`. -/
def jsonChat (id channel sender content timestamp : String) : String :=
  "\x7b\"id\":\"" ++ id ++ "\",\"type\":\"chat\",\"channel\":\"" ++ channel ++
    "\",\"from\":\"" ++ sender ++ "\",\"content\":\"" ++ content ++
    "\",\"timestamp\":\"" ++ timestamp ++ "\"\x7d"

/-- The `JSON.stringify` text of the private-message envelope built by
`sendPrivateMessage` (part_001:237-244): field order
`id, type, from, to, content, timestamp`. -/
def jsonPrivate (id sender recipient content timestamp : String) : String :=
  "\x7b\"id\":\"" ++ id ++ "\",\"type\":\"private\",\"from\":\"" ++ sender ++
    "\",\"to\":\"" ++ recipient ++ "\",\"content\":\"" ++ content ++
    "\",\"timestamp\":\"" ++ timestamp ++ "\"\x7d"

/-- Model of `ChatService.addPrivateMessage` (part_001:636-646). -/
def addPrivateMessage (cs : ChatState) (peer : String) (m : ChatMsg) : ChatState :=
  { cs with privateMessages :=
      fun p => if p = peer then cs.privateMessages p ++ [m] else cs.privateMessages p }

/-- Model of `ChatService.addSystemMessage` (part_001:623-631); the generated random
message id and the clock reading are passed in. -/
def addSystemMessage (cs : ChatState) (channel content sysId timestamp : String) :
    ChatState :=
  let sysMessage : ChatMsg :=
    { id := sysId, kind := "system", channel := channel, sender := "",
      recipient := "", content := content, timestamp := timestamp, own := false }
  { cs with messages := addMessageMap cs.messages channel sysMessage }

/-- Model of `ChatService.sendChannelMessage` (part_001:188-227): builds the chat
envelope, stores the local copy, then calls
`this.crossTabService.sendMessage(...)`.  `CrossTabService`
(src/js/cross-tab.js) defines no `sendMessage` method, so that call raises a
TypeError which the surrounding try/catch swallows: the function returns
`false` and `this.bluetoothService.broadcastMessage` is never reached — no
bytes are written to any data channel. -/
def sendChannelMessage (cs : ChatState) (channel content msgId timestamp : String) :
    ChatState × Bool × List BT.Out :=
  let localMessage : ChatMsg :=
    { id := msgId, kind := "chat", channel := channel, sender := cs.myNickname,
      recipient := "", content := content, timestamp := timestamp, own := true }
  let cs' := { cs with messages := addMessageMap cs.messages channel localMessage }
  (cs', false, [])

/-- Model of `ChatService.sendPrivateMessage` (part_001:232-280): builds the private
envelope, stores the local copy, finds the target peer by nickname among
`getConnectedPeers()`, and sends the JSON text via
`bluetoothService.sendToPeer`; on a failed send or unknown peer the catch
block adds a system error message to the current channel and returns false.
`sysId` is the random id the error path would generate. -/
def sendPrivateMessage (cs : ChatState) (targetNickname content msgId sysId timestamp : String) :
    ChatState × Bool × List BT.Out :=
  let messageJson := jsonPrivate msgId cs.myNickname targetNickname content timestamp
  let localMessage : ChatMsg :=
    { id := msgId, kind := "private", channel := "", sender := cs.myNickname,
      recipient := targetNickname, content := content, timestamp := timestamp, own := true }
  let cs1 := addPrivateMessage cs targetNickname localMessage
  match cs.bt.peers.find? (fun pr => pr.2 == targetNickname) with
  | some pr =>
    let r := BT.sendToPeer cs.bt pr.1 messageJson
    if r.1 then (cs1, true, r.2)
    else
      (addSystemMessage cs1 cs1.currentChannel
        ("Impossible d'envoyer le message privé à " ++ targetNickname ++
          ": Failed to send to peer") sysId timestamp, false, r.2)
  | none =>
    (addSystemMessage cs1 cs1.currentChannel
      ("Impossible d'envoyer le message privé à " ++ targetNickname ++
        ": Peer not found") sysId timestamp, false, [])

end Chat

/-! Concrete fixtures used to instantiate the claims on concrete inputs. -/

/-- A `BluetoothService` state with one connected peer `peer-1` (nickname
`Bob`) whose data channel is open, and a live signaling socket. -/
def btFix : BT.BTState :=
  { myId := "me-1", roomId := "bitchat-r1", myNickname := "Alice", now := 7,
    peers := [("peer-1", "Bob")], discoveredPeers := [],
    connections := ["peer-1"], dataChannels := [("peer-1", ⟨true, true⟩)],
    isScanning := false, wsExists := true, wsReady := true,
    discoveryIntervalSet := false, simPending := false, autoConnectPending := [] }

/-- The corresponding `ChatService` state. -/
def chatFix : Chat.ChatState :=
  { bt := btFix, messages := fun _ => [], privateMessages := fun _ => [],
    currentChannel := "#général", myNickname := "Alice" }

/-- A fresh service for peer id `a` whose signaling socket is open. -/
def wsReadyState (myId : String) : BT.BTState :=
  { BT.initState myId ("bitchat-" ++ myId) "nick" 0 with
      wsExists := true, wsReady := true }

/-- C4 counterexample trace: the reachability probe succeeds, the socket
opens, a real peer joins via the relay (live relay-sourced discovery), then
the socket closes — whose `onclose` handler schedules
`simulatePeerDiscovery` — and the scheduled fallback timer fires. -/
def c4trace : List BT.Ev :=
  [BT.Ev.probeResult true, BT.Ev.wsOpened,
   BT.Ev.wsMessage (BT.SigMsg.peerJoined "remote-9"),
   BT.Ev.wsClosed, BT.Ev.simTimerFire]

/-- C5 counterexample trace: probe succeeds, socket opens, peer `x` is
discovered and a negotiation towards `x` starts; no answer ever arrives while
further timers fire. -/
def c5trace : List BT.Ev :=
  [BT.Ev.probeResult true, BT.Ev.wsOpened,
   BT.Ev.wsMessage (BT.SigMsg.peerJoined "x"),
   BT.Ev.discoveryTick, BT.Ev.simTimerFire]

/-- A service whose live signaling socket has closed: the `onclose` handler
has scheduled the simulation fallback. -/
def btSimPendingFix : BT.BTState :=
  { wsReadyState "me-1" with wsReady := false, simPending := true }


/-! ## Helper lemmas -/

/-- Comparator `charListLeb` decides the negation of the lexicographic strict order. -/
theorem charListLeb_iff_not_lex :
    ∀ as bs : List Char, CrossTab.charListLeb as bs = true ↔
      ¬ List.Lex (· < ·) bs as := by
  intro as
  induction as with
  | nil =>
    intro bs
    constructor
    · intro _ h
      cases bs with
      | nil => cases h
      | cons b bs => cases h
    · intro _
      rfl
  | cons a as ih =>
    intro bs
    cases bs with
    | nil =>
      simp only [CrossTab.charListLeb, Bool.false_eq_true, false_iff, not_not]
      exact List.Lex.nil
    | cons b bs =>
      rcases lt_trichotomy a b with hab | hab | hab
      · simp only [CrossTab.charListLeb, if_pos hab, true_iff]
        intro h
        cases h with
        | cons h => exact absurd hab (lt_irrefl a)
        | rel h => exact absurd hab (asymm h)
      · subst hab
        simp only [CrossTab.charListLeb, if_neg (lt_irrefl a)]
        rw [ih bs]
        constructor
        · intro h hl
          cases hl with
          | cons hl => exact h hl
          | rel hl => exact absurd hl (lt_irrefl a)
        · intro h hl
          exact h (List.Lex.cons hl)
      · simp only [CrossTab.charListLeb, if_neg (asymm hab), if_pos hab,
          Bool.false_eq_true, false_iff, not_not]
        exact List.Lex.rel hab

/-- The JS sort comparator decides the string order. -/
theorem jsLeb_iff (a b : String) : CrossTab.jsLeb a b = true ↔ a ≤ b := by
  rw [CrossTab.jsLeb, charListLeb_iff_not_lex]
  have hlt : (b < a) ↔ List.Lex (· < ·) b.data a.data := String.lt_iff_toList_lt
  rw [← hlt, not_lt]

theorem jsLeb_trans (a b c : String) (h₁ : CrossTab.jsLeb a b = true)
    (h₂ : CrossTab.jsLeb b c = true) : CrossTab.jsLeb a c = true := by
  rw [jsLeb_iff] at h₁ h₂ ⊢
  exact le_trans h₁ h₂

theorem jsLeb_total (a b : String) :
    (CrossTab.jsLeb a b || CrossTab.jsLeb b a) = true := by
  rcases le_total a b with h | h
  · rw [Bool.or_eq_true]
    exact Or.inl ((jsLeb_iff a b).mpr h)
  · rw [Bool.or_eq_true]
    exact Or.inr ((jsLeb_iff b a).mpr h)

/-! ## Claim C2 -/

/-- Claim C2: for every string message and symmetric key, the encrypt-then-
decrypt round trip with the same key is the identity: `encryptMessage`
prepends the 12-byte random IV to the AES-GCM ciphertext and `decryptMessage`
splits off the first 12 bytes as the IV, so
`decryptMessage (encryptMessage m k) k = some m` for any WebCrypto
implementation satisfying the AES-GCM and text-codec contracts. -/
theorem c2_encrypt_decrypt_roundtrip {Key : Type} (C : Crypto.SubtleCrypto Key)
    (iv : List Nat) (message : String) (key : Key) (hiv : iv.length = 12) :
    Crypto.decryptMessage C (Crypto.encryptMessage C iv message key) key =
      some message := by
  unfold Crypto.encryptMessage Crypto.decryptMessage
  simp only [← hiv, List.take_left, List.drop_left, C.gcm_roundtrip,
    Option.map_some', C.text_roundtrip]

/-- Witness for C2 on a concrete 12-byte IV, message and capability
instance. -/
theorem c2_encrypt_decrypt_roundtrip_witness :
    Crypto.iv12.length = 12 ∧
      Crypto.decryptMessage Crypto.idSubtle
        (Crypto.encryptMessage Crypto.idSubtle Crypto.iv12 "hello" ()) () =
        some "hello" :=
  ⟨by decide,
   c2_encrypt_decrypt_roundtrip Crypto.idSubtle Crypto.iv12 "hello" () (by decide)⟩

/-! ## Claim C9 -/

/-- Claim C9: leader election is a deterministic function of the
registered-tabs table: `electLeader` returns true exactly when the tab id is
the lexicographically smallest key of the non-empty table, and for every
fixed non-empty table exactly one id elects itself leader. -/
theorem c9_electLeader_min (tabs : List String) (hne : tabs ≠ []) :
    (∀ myTabId, CrossTab.electLeader tabs myTabId = true ↔
        myTabId ∈ tabs ∧ ∀ t ∈ tabs, myTabId ≤ t)
    ∧ (∃! leader, CrossTab.electLeader tabs leader = true) := by
  have hperm : (tabs.mergeSort CrossTab.jsLeb).Perm tabs :=
    List.mergeSort_perm tabs _
  have hsorted : (tabs.mergeSort CrossTab.jsLeb).Pairwise
      (fun a b => CrossTab.jsLeb a b = true) :=
    List.sorted_mergeSort jsLeb_trans jsLeb_total tabs
  cases hs : tabs.mergeSort CrossTab.jsLeb with
  | nil =>
    rw [hs] at hperm
    exact absurd hperm.symm.eq_nil hne
  | cons first rest =>
    rw [hs] at hperm hsorted
    have hfirstmem : first ∈ tabs := hperm.mem_iff.mp (List.mem_cons_self first rest)
    have hfirstmin : ∀ t ∈ tabs, first ≤ t := by
      intro t ht
      have ht' : t ∈ first :: rest := hperm.mem_iff.mpr ht
      rcases List.mem_cons.mp ht' with h | h
      · exact h ▸ le_refl first
      · exact (jsLeb_iff first t).mp (List.rel_of_pairwise_cons hsorted h)
    have helect : ∀ x, CrossTab.electLeader tabs x = true ↔ first = x := by
      intro x
      simp [CrossTab.electLeader, hs]
    constructor
    · intro x
      rw [helect x]
      constructor
      · rintro rfl
        exact ⟨hfirstmem, hfirstmin⟩
      · rintro ⟨hx, hmin⟩
        exact le_antisymm (hfirstmin x hx) (hmin first hfirstmem)
    · exact ⟨first, (helect first).mpr rfl, fun y hy => ((helect y).mp hy).symm⟩

/-- Witness for C9 on a concrete two-tab table. -/
theorem c9_electLeader_min_witness :
    (["tab-b", "tab-a"] : List String) ≠ []
    ∧ ∃! leader, CrossTab.electLeader ["tab-b", "tab-a"] leader = true :=
  ⟨by decide, (c9_electLeader_min ["tab-b", "tab-a"] (by decide)).2⟩

/-! ## Claim C10 -/

/-- Claim C10: after `addMessage(channel, message)` the channel's message
list has at most 1000 entries, ends with the message just added, and equals
the most recent entries of the pushed list in their original order (only the
oldest entries are dropped). -/
theorem c10_addMessage_bounded {α : Type} (messages : String → List α)
    (channel : String) (m : α) :
    (Chat.addMessageMap messages channel m channel).length ≤ 1000
    ∧ (Chat.addMessageMap messages channel m channel).getLast? = some m
    ∧ Chat.addMessageMap messages channel m channel =
        (messages channel ++ [m]).drop ((messages channel ++ [m]).length - 1000) := by
  have hmap : Chat.addMessageMap messages channel m channel =
      Chat.addMessage (messages channel) m := by
    simp [Chat.addMessageMap]
  have hlen1 : (messages channel ++ [m]).length = (messages channel).length + 1 := by
    simp
  have key : Chat.addMessage (messages channel) m =
      (messages channel ++ [m]).drop ((messages channel ++ [m]).length - 1000) := by
    unfold Chat.addMessage
    by_cases h : (messages channel ++ [m]).length > 1000
    · rw [if_pos h]
    · rw [if_neg h]
      have h0 : (messages channel ++ [m]).length - 1000 = 0 := by omega
      rw [h0, List.drop_zero]
  refine ⟨?_, ?_, ?_⟩
  · rw [hmap, key, List.length_drop]
    omega
  · rw [hmap, key, List.getLast?_drop, if_neg (by omega), List.getLast?_concat]
  · rw [hmap, key]

/-! ## Claims C6, C7, C8 -/

theorem contains_iff_mem (l : List String) (a : String) :
    l.contains a = true ↔ a ∈ l := by
  simp [List.contains, List.elem_iff]

/-- Claim C6: requesting a connection to a PeerId that already has an entry in
the connections table is a no-op: `connectToPeer` is the same call as
`initiateConnectionToPeer`; for every state whose table holds the peer a call
returns the state unchanged and sends nothing; calling twice from a state
without the peer leaves the second call a no-op and exactly one connection
entry for that peer. -/
theorem c6_connect_idempotent (st : BT.BTState) (p : String)
    (hnew : p ∉ st.connections) :
    BT.connectToPeer st p = BT.initiateConnectionToPeer st p
    ∧ (∀ st2 : BT.BTState, p ∈ st2.connections →
        BT.initiateConnectionToPeer st2 p = (st2, []))
    ∧ BT.initiateConnectionToPeer (BT.initiateConnectionToPeer st p).1 p =
        ((BT.initiateConnectionToPeer st p).1, [])
    ∧ (BT.initiateConnectionToPeer st p).1.connections.count p = 1 := by
  have hnoop : ∀ st2 : BT.BTState, p ∈ st2.connections →
      BT.initiateConnectionToPeer st2 p = (st2, []) := by
    intro st2 h2
    unfold BT.initiateConnectionToPeer
    rw [if_pos ((contains_iff_mem _ _).mpr h2)]
  have hc : st.connections.contains p = false := by
    cases hb : st.connections.contains p
    · rfl
    · exact absurd ((contains_iff_mem _ _).mp hb) hnew
  have hfst : (BT.initiateConnectionToPeer st p).1 =
      { st with connections := st.connections ++ [p] } := by
    unfold BT.initiateConnectionToPeer
    rw [hc]
    rfl
  refine ⟨rfl, hnoop, ?_, ?_⟩
  · apply hnoop
    rw [hfst]
    simp
  · rw [hfst]
    have hz : st.connections.count p = 0 := List.count_eq_zero.mpr hnew
    simp [List.count_append, hz]

/-- Witness for C6 on a fresh service. -/
theorem c6_connect_idempotent_witness :
    ("b" ∉ (wsReadyState "a").connections)
    ∧ BT.initiateConnectionToPeer
        (BT.initiateConnectionToPeer (wsReadyState "a") "b").1 "b" =
        ((BT.initiateConnectionToPeer (wsReadyState "a") "b").1, [])
    ∧ (BT.initiateConnectionToPeer (wsReadyState "a") "b").1.connections.count "b" = 1 :=
  ⟨by decide,
   (c6_connect_idempotent (wsReadyState "a") "b" (by decide)).2.2.1,
   (c6_connect_idempotent (wsReadyState "a") "b" (by decide)).2.2.2⟩

theorem lookupAssoc_some_mem {α : Type} :
    ∀ (l : List (String × α)) (key : String) (v : α),
      BT.lookupAssoc l key = some v → ∃ k0, (k0, v) ∈ l ∧ k0 = key := by
  intro l
  induction l with
  | nil =>
    intro key v h
    simp [BT.lookupAssoc] at h
  | cons kv rest ih =>
    obtain ⟨k0, v0⟩ := kv
    intro key v h
    rw [BT.lookupAssoc] at h
    split at h
    · rename_i hk
      injection h with hv
      exact ⟨k0, by simp [hv], beq_iff_eq.mp hk⟩
    · rename_i hk
      obtain ⟨k1, hmem, hkey⟩ := ih key v h
      exact ⟨k1, List.mem_cons_of_mem _ hmem, hkey⟩

/-- Claim C7: when the peer-record table and the open data channels coincide
(the claim's parenthetical: a peer record is Connected exactly when an open
channel exists for it) and the channels do not throw, `sendToPeer` to a
non-Connected peer returns the failure result and writes nothing to any
channel, and `sendToPeer` to a Connected peer returns the success result. -/
theorem c7_sendToPeer (st : BT.BTState) (peerId message : String)
    (hpc : ∀ pr ∈ st.peers, BT.channelOpenFor st pr.1 = true)
    (hcp : ∀ ch ∈ st.dataChannels, ch.2.isOpen = true →
      BT.isPeerConnected st ch.1 = true)
    (hok : ∀ ch ∈ st.dataChannels, ch.2.canSend = true) :
    (BT.isPeerConnected st peerId = false →
        BT.sendToPeer st peerId message = (false, []))
    ∧ (BT.isPeerConnected st peerId = true →
        (BT.sendToPeer st peerId message).1 = true) := by
  constructor
  · intro hnc
    cases hl : BT.lookupAssoc st.dataChannels peerId with
    | none => simp [BT.sendToPeer, hl]
    | some dc =>
      by_cases ho : dc.isOpen = true
      · exfalso
        obtain ⟨k0, hmem, hkey⟩ := lookupAssoc_some_mem st.dataChannels peerId dc hl
        have hcon := hcp (k0, dc) hmem ho
        rw [hkey] at hcon
        rw [hcon] at hnc
        cases hnc
      · have ho' : dc.isOpen = false := by
          cases hdc : dc.isOpen
          · rfl
          · exact absurd hdc ho
        simp [BT.sendToPeer, hl, ho']
  · intro hc
    rw [BT.isPeerConnected] at hc
    obtain ⟨pr, hpr, hprid⟩ := List.any_eq_true.mp hc
    have hopen := hpc pr hpr
    have hprid' : pr.1 = peerId := beq_iff_eq.mp hprid
    rw [hprid'] at hopen
    unfold BT.channelOpenFor at hopen
    cases hl : BT.lookupAssoc st.dataChannels peerId with
    | none =>
      rw [hl] at hopen
      cases hopen
    | some dc =>
      rw [hl] at hopen
      obtain ⟨k0, hmem, _⟩ := lookupAssoc_some_mem st.dataChannels peerId dc hl
      have hopen' : dc.isOpen = true := hopen
      have hcs : dc.canSend = true := hok (k0, dc) hmem
      simp [BT.sendToPeer, hl, hopen', hcs]

/-- Witness for C7: in `btFix`, a send to the unknown peer fails with no
write, a send to the connected peer `peer-1` succeeds. -/
theorem c7_sendToPeer_witness :
    BT.sendToPeer btFix "nobody" "msg" = (false, [])
    ∧ (BT.sendToPeer btFix "peer-1" "msg").1 = true := by
  have h1 := c7_sendToPeer btFix "nobody" "msg" (by decide) (by decide) (by decide)
  have h2 := c7_sendToPeer btFix "peer-1" "msg" (by decide) (by decide) (by decide)
  exact ⟨h1.1 (by decide), h2.2 (by decide)⟩

theorem broadcast_foldl_spec (st : BT.BTState) (message : String) :
    ∀ (l : List (String × String)) (n : Nat) (outs : List BT.Out),
      l.foldl
        (fun acc pr =>
          let r := BT.sendToPeer st pr.1 message
          (if r.1 then acc.1 + 1 else acc.1, acc.2 ++ r.2)) (n, outs) =
      (n + l.countP (fun pr => (BT.sendToPeer st pr.1 message).1),
       outs ++ l.flatMap (fun pr => (BT.sendToPeer st pr.1 message).2)) := by
  intro l
  induction l with
  | nil =>
    intro n outs
    simp
  | cons pr rest ih =>
    intro n outs
    simp only [List.foldl_cons]
    rw [ih]
    cases hb : (BT.sendToPeer st pr.1 message).1
    · simp [hb, List.countP_cons]
    · simp [hb, List.countP_cons]
      omega

/-- Claim C8: `broadcastMessage` returns exactly the number of peers in the
`peers` table for which the individual `sendToPeer` succeeds, and its channel
writes are the concatenation of each peer's individual send attempt — every
peer is attempted independently of other peers' failures, and no failure is
escalated (the return value is only the count). -/
theorem c8_broadcastMessage_spec (st : BT.BTState) (message : String) :
    (BT.broadcastMessage st message).1 =
      st.peers.countP (fun pr => (BT.sendToPeer st pr.1 message).1)
    ∧ (BT.broadcastMessage st message).2 =
      st.peers.flatMap (fun pr => (BT.sendToPeer st pr.1 message).2) := by
  unfold BT.broadcastMessage
  rw [broadcast_foldl_spec st message st.peers 0 []]
  simp

/-! ## Claim C1 -/

/-- Claim C1 (code evaluation): on a state with peer `peer-1` Connected and
its data channel open, a private ("Application") frame is written to the data
channel as the plaintext JSON envelope — byte for byte — with no session-key
encryption, and a channel-chat send writes nothing at all (it returns false
after the TypeError on the missing `CrossTabService.sendMessage`), contrary to
the claim that the bytes written are the authenticated encryption of the
payload under the peer's SessionKey. -/
theorem c1_application_frames_plaintext :
    (Chat.sendPrivateMessage chatFix "Bob" "hello" "m1" "s1"
        "2025-01-01T00:00:00.000Z").2 =
      (true, [BT.Out.channelWrite "peer-1"
        "\x7b\"id\":\"m1\",\"type\":\"private\",\"from\":\"Alice\",\"to\":\"Bob\",\"content\":\"hello\",\"timestamp\":\"2025-01-01T00:00:00.000Z\"\x7d"])
    ∧ (Chat.sendChannelMessage chatFix "#général" "hello" "m2" "t2").2 =
      (false, []) := by
  constructor
  · rfl
  · rfl

/-! ## Claim C3 -/

/-- Claim C3 counterexample: peers `a` and `b` are in the same room; `a`
learns of `b` from the `room-joined` member list while `b` learns of `a` from
the `peer-joined` event — the standard join sequence — and BOTH sides create
and send an offer: both become Initiator, so it is not the case that exactly
one of the two is selected by a symmetric tie-break on their PeerIds. -/
theorem c3_both_sides_initiate :
    (BT.handleSignalingMessage (wsReadyState "a") (BT.SigMsg.roomJoined ["b"])).2 =
      [BT.Out.sigSend (BT.SigOut.offer "a" "b" 0)]
    ∧ (BT.handleSignalingMessage (wsReadyState "b") (BT.SigMsg.peerJoined "a")).2 =
      [BT.Out.sigSend (BT.SigOut.offer "b" "a" 0)] := by
  constructor
  · rfl
  · rfl

/-- Claim C3 amended: no tie-break on PeerIds is performed; whichever side
learns of a peer (via the `room-joined` member list or a `peer-joined` event)
initiates and sends an offer whenever it has no existing connection entry,
regardless of how the two PeerIds compare — so two peers discovering each
other through the join sequence both become initiators. -/
theorem c3_amended_no_tiebreak (st : BT.BTState) (p : String)
    (hne : p ≠ st.myId) (hnc : p ∉ st.connections)
    (hex : st.wsExists = true) (hrd : st.wsReady = true) :
    (BT.handleSignalingMessage st (BT.SigMsg.peerJoined p)).2 =
      [BT.Out.sigSend (BT.SigOut.offer st.myId p 0)]
    ∧ (BT.handleSignalingMessage st (BT.SigMsg.roomJoined [p])).2 =
      [BT.Out.sigSend (BT.SigOut.offer st.myId p 0)] := by
  have hbne : (p != st.myId) = true := bne_iff_ne.mpr hne
  have hc : st.connections.contains p = false := by
    cases hb : st.connections.contains p
    · rfl
    · exact absurd ((contains_iff_mem _ _).mp hb) hnc
  have hinit : BT.initiateConnectionToPeer st p =
      ({ st with connections := st.connections ++ [p] },
       [BT.Out.sigSend (BT.SigOut.offer st.myId p 0)]) := by
    unfold BT.initiateConnectionToPeer
    rw [hc]
    simp [BT.sendSignalingMessage, hex, hrd]
  constructor
  · simp [BT.handleSignalingMessage, hbne, hinit]
  · simp [BT.handleSignalingMessage, hbne, hinit]
    rw [if_neg hne]

/-- Witness for the amended C3. -/
theorem c3_amended_no_tiebreak_witness :
    (BT.handleSignalingMessage (wsReadyState "carol") (BT.SigMsg.peerJoined "dave")).2 =
      [BT.Out.sigSend (BT.SigOut.offer "carol" "dave" 0)] :=
  (c3_amended_no_tiebreak (wsReadyState "carol") "dave" (by decide) (by decide)
    rfl rfl).1

/-! ## Claim C4 -/

/-- Claim C4 counterexample: a single session whose reachability probe
SUCCEEDED (`probeResult true`) and whose live signaling connection produced
real relay-sourced discovery (the relay's `peer-joined` for `remote-9`,
answered with an offer) still emits the simulated `peer-discovered` events
for Alice/Bob/Carol: when the socket later closes, its `onclose` handler
schedules `simulatePeerDiscovery`, which fires — so simulated discovery is
not confined to a failed startup probe, and real and simulated discovery
occur in the same session. -/
theorem c4_simulated_and_real_same_session :
    (BT.run (BT.initState "me-1" "room-1" "Al" 0) c4trace).2 =
      [BT.Out.sigSend (BT.SigOut.join "room-1" "me-1"),
       BT.Out.sigSend (BT.SigOut.offer "me-1" "remote-9" 0),
       BT.Out.discoveredCb "peer-001" "Alice" (-45),
       BT.Out.discoveredCb "peer-002" "Bob" (-67),
       BT.Out.discoveredCb "peer-003" "Carol" (-89)] := by
  rfl

/-- Claim C4 amended: `initWithFallback` gates the startup fallback on the
probe, but that is not the only trigger of simulated discovery: the signaling
socket's `onclose` handler schedules `simulatePeerDiscovery` unconditionally,
so whenever the socket of a session closes — including a session whose probe
succeeded and whose live connection produced relay-sourced discovery — the
scheduled fallback fires and emits the synthetic `peer-discovered` events,
regardless of the probe result. -/
theorem c4_amended_onclose_sim (st : BT.BTState) (hws : st.wsExists = true) :
    (BT.step st BT.Ev.wsClosed).1.simPending = true
    ∧ ∀ st2 : BT.BTState, st2.simPending = true →
        (BT.step st2 BT.Ev.simTimerFire).2 =
          [BT.Out.discoveredCb "peer-001" "Alice" (-45),
           BT.Out.discoveredCb "peer-002" "Bob" (-67),
           BT.Out.discoveredCb "peer-003" "Carol" (-89)] := by
  constructor
  · simp [BT.step, hws]
  · intro st2 h2
    simp [BT.step, h2, BT.simulatePeerDiscovery, BT.simulatedPeers]

/-- Witness for the amended C4. -/
theorem c4_amended_onclose_sim_witness :
    (BT.step (wsReadyState "me-1") BT.Ev.wsClosed).1.simPending = true
    ∧ (BT.step btSimPendingFix BT.Ev.simTimerFire).2 =
      [BT.Out.discoveredCb "peer-001" "Alice" (-45),
       BT.Out.discoveredCb "peer-002" "Bob" (-67),
       BT.Out.discoveredCb "peer-003" "Carol" (-89)] :=
  ⟨(c4_amended_onclose_sim (wsReadyState "me-1") rfl).1,
   (c4_amended_onclose_sim (wsReadyState "me-1") rfl).2 btSimPendingFix rfl⟩

/-! ## Claim C5 -/

/-- Claim C5 counterexample: after the run in which a negotiation towards `x`
was started and no answer ever arrived (only timers fired afterwards), the
session is NOT forced to a terminal state and NOT released: `x` is still in
the connections table, and a subsequent connect attempt for `x` is a no-op
that reuses the stale entry (no fresh session, no new offer). -/
theorem c5_stale_session_reused :
    "x" ∈ (BT.run (BT.initState "me-1" "room-1" "Al" 0) c5trace).1.connections
    ∧ BT.connectToPeer (BT.run (BT.initState "me-1" "room-1" "Al" 0) c5trace).1 "x" =
      ((BT.run (BT.initState "me-1" "room-1" "Al" 0) c5trace).1, []) := by
  constructor
  · decide
  · rfl

theorem connections_mono_initiate (st : BT.BTState) (q p : String)
    (h : p ∈ st.connections) :
    p ∈ (BT.initiateConnectionToPeer st q).1.connections := by
  unfold BT.initiateConnectionToPeer
  by_cases hq : st.connections.contains q = true
  · rw [if_pos hq]
    exact h
  · rw [if_neg hq]
    exact List.mem_append_left _ h

theorem connections_mono_incomingOffer (st : BT.BTState) (q p : String)
    (h : p ∈ st.connections) :
    p ∈ (BT.handleIncomingOffer st q).1.connections := by
  unfold BT.handleIncomingOffer
  exact List.mem_append_left _ h

theorem connections_mono_webrtc (st : BT.BTState) (q p : String) (m : BT.SigMsg)
    (h : p ∈ st.connections) :
    p ∈ (BT.handleWebRTCSignaling st q m).1.connections := by
  unfold BT.handleWebRTCSignaling
  by_cases hq : st.connections.contains q = true
  · rw [if_pos hq]
    cases m <;> exact h
  · rw [if_neg hq]
    cases m <;> first
      | exact connections_mono_incomingOffer st q p h
      | exact h

theorem connections_mono_onPeerConnected (st : BT.BTState) (q p : String)
    (h : p ∈ st.connections) :
    p ∈ (BT.onPeerConnected st q).1.connections := by
  unfold BT.onPeerConnected
  exact h

theorem connections_after_onPeerDisconnected (st : BT.BTState) (q p : String)
    (hqp : p ≠ q) (h : p ∈ st.connections) :
    p ∈ (BT.onPeerDisconnected st q).1.connections := by
  unfold BT.onPeerDisconnected
  exact List.mem_filter.mpr ⟨h, bne_iff_ne.mpr hqp⟩

theorem connections_eq_simulate (st : BT.BTState) :
    (BT.simulatePeerDiscovery st).1.connections = st.connections := by
  simp [BT.simulatePeerDiscovery, BT.simulatedPeers]

theorem connections_mono_roomJoined (p : String) :
    ∀ (ids : List String) (acc : BT.BTState × List BT.Out),
      p ∈ acc.1.connections →
      p ∈ (ids.foldl
          (fun acc id =>
            if id != acc.1.myId then
              let r := BT.initiateConnectionToPeer acc.1 id
              (r.1, acc.2 ++ r.2)
            else acc) acc).1.connections := by
  intro ids
  induction ids with
  | nil =>
    intro acc h
    exact h
  | cons id rest ih =>
    intro acc h
    rw [List.foldl_cons]
    apply ih
    by_cases hid : (id != acc.1.myId) = true
    · simp only [if_pos hid]
      exact connections_mono_initiate acc.1 id p h
    · simp only [if_neg hid]
      exact h

/-- Claim C5 amended: the source sets no negotiation timeout.  A connections
entry, once created, persists under every event except the explicit removals
(`peer-left` from the relay, the RTC connection reporting
disconnected/failed, or an explicit disconnect call) — in particular no timer
releases it when no answer arrives — and a subsequent connect attempt for
that peer is a no-op returning the state unchanged with no new offer, reusing
the stale session. -/
theorem c5_amended_no_timeout (st : BT.BTState) (p : String)
    (h : p ∈ st.connections) :
    BT.connectToPeer st p = (st, [])
    ∧ ∀ e : BT.Ev, BT.removesConnection p e = false →
        p ∈ (BT.step st e).1.connections := by
  constructor
  · unfold BT.connectToPeer BT.initiateConnectionToPeer
    rw [if_pos ((contains_iff_mem _ _).mpr h)]
  · intro e hre
    cases e with
    | probeResult r =>
      cases r <;> simpa [BT.step] using h
    | wsOpened =>
      simp only [BT.step]
      split
      · exact h
      · exact h
    | wsMessage m =>
      simp only [BT.step]
      split
      · cases m with
        | roomJoined ids =>
          simp only [BT.handleSignalingMessage]
          exact connections_mono_roomJoined p ids (st, []) h
        | peerJoined q =>
          simp only [BT.handleSignalingMessage]
          split
          · exact connections_mono_initiate st q p h
          · exact h
        | peerLeft q =>
          have hq : p ≠ q := by
            intro hpq
            subst hpq
            simp [BT.removesConnection] at hre
          simp only [BT.handleSignalingMessage]
          exact connections_after_onPeerDisconnected st q p hq h
        | offer q d => exact connections_mono_webrtc st q p _ h
        | answer q d => exact connections_mono_webrtc st q p _ h
        | iceCandidate q d => exact connections_mono_webrtc st q p _ h
      · exact h
    | wsClosed =>
      simp only [BT.step]
      split
      · exact h
      · exact h
    | startScan =>
      simp only [BT.step, BT.startScanning]
      split
      · exact h
      · exact h
    | stopScan =>
      simpa [BT.step] using h
    | discoveryTick =>
      simp only [BT.step]
      split
      · rw [connections_eq_simulate]
        exact h
      · exact h
    | simTimerFire =>
      simp only [BT.step]
      split
      · rw [connections_eq_simulate]
        exact h
      · exact h
    | autoConnectFire q =>
      simp only [BT.step]
      split
      · exact connections_mono_onPeerConnected _ q p h
      · exact h
    | channelOpened q c =>
      simpa [BT.step] using h
    | channelClosed q =>
      simpa [BT.step] using h
    | connConnected q =>
      simp only [BT.step]
      exact connections_mono_onPeerConnected st q p h
    | connFailed q =>
      have hq : p ≠ q := by
        intro hpq
        subst hpq
        simp [BT.removesConnection] at hre
      simp only [BT.step]
      exact connections_after_onPeerDisconnected st q p hq h
    | connectRequest q =>
      simp only [BT.step, BT.connectToPeer]
      exact connections_mono_initiate st q p h
    | disconnectRequest q =>
      have hq : p ≠ q := by
        intro hpq
        subst hpq
        simp [BT.removesConnection] at hre
      simp only [BT.step, BT.disconnectFromPeer]
      exact connections_after_onPeerDisconnected st q p hq h

/-- Witness for the amended C5. -/
theorem c5_amended_no_timeout_witness :
    BT.connectToPeer btFix "peer-1" = (btFix, [])
    ∧ "peer-1" ∈ (BT.step btFix BT.Ev.discoveryTick).1.connections :=
  ⟨(c5_amended_no_timeout btFix "peer-1" (by decide)).1,
   (c5_amended_no_timeout btFix "peer-1" (by decide)).2 BT.Ev.discoveryTick (by decide)⟩
